import Mathlib

/-!
Verification of the AI pull-request review action (`.github/scripts/review.js`).

The script fetches a PR diff, numbers its added/context lines
(`parseDiffAndAddLineNumbers`), sends a prompt to an external reviewer,
sanitizes the returned findings, posts them (`postReview`) and decides the
process outcome (`run`).  Strings are modelled as `List Char`; the numeric
`line` field of a reviewer finding is an `Int` (JSON number).  Effects
(network calls, `core.setFailed`) are modelled as fields of an explicit
result record.
-/

namespace Review

/-- `CONFIG.diffLimit` from the script. -/
def diffLimit : Nat := 40000

/-! ### Diff parsing (`parseDiffAndAddLineNumbers`, review.js lines 258–301) -/

/-- Kind of a line of the new file materialised by the parser: the `'+'`
branch or the `' '` branch of the loop.  Removed (`'-'`) lines never
materialise. -/
inductive DKind where
  | added
  | context
deriving DecidableEq, Repr

/-- One numbered entry pushed onto `numberedContent` by the parser:
`currentFile`, `currentLine` at the moment of the push, and the line text
with its one-character diff marker stripped (`line.substring(1)`). -/
structure DiffRec where
  file : List Char
  lineNumber : Nat
  content : List Char
  kind : DKind
deriving DecidableEq, Repr

/-- The loop state of `parseDiffAndAddLineNumbers`: `currentFile` (initially
the empty string, i.e. JS-falsy) and `currentLine` (initially `0`). -/
structure PState where
  currFile : List Char
  currLine : Nat
deriving DecidableEq, Repr

/-- Longest run of decimal digits at the head of the list: the `\d+` part of
the hunk-header regex `/\+(\d+)/`. -/
def takeDigits : List Char → List Char
  | [] => []
  | c :: cs => if c.isDigit then c :: takeDigits cs else []

/-- `parseInt(·, 10)` on a nonempty digit string. -/
def digitsToNat (ds : List Char) : Nat :=
  ds.foldl (fun a c => a * 10 + (c.toNat - 48)) 0

/-- `line.match(/\+(\d+)/)`: first `'+'` that is immediately followed by at
least one digit; returns the value of the maximal digit run after it. -/
def findPlusNum : List Char → Option Nat
  | [] => none
  | '+' :: cs =>
      let ds := takeDigits cs
      if ds = [] then findPlusNum cs else some (digitsToNat ds)
  | _ :: cs => findPlusNum cs

/-- One iteration of the parser loop on a single line of the diff,
returning the new state and the entries it pushes (zero or one). -/
def parseStep (s : PState) (line : List Char) : PState × List DiffRec :=
  if ("diff --git".toList).isPrefixOf line then
    -- file header: take the first space-separated part starting with "b/"
    match (line.splitOn ' ').find? (fun p => ("b/".toList).isPrefixOf p) with
    | some bp => ({ s with currFile := bp.drop 2 }, [])
    | none => (s, [])
  else if ("@@".toList).isPrefixOf line then
    -- hunk header: reset currentLine to the new-file start offset
    match findPlusNum line with
    | some n => ({ s with currLine := n }, [])
    | none => (s, [])
  else if s.currFile ≠ [] then
    if (("+".toList).isPrefixOf line) ∧ ¬ (("+++".toList).isPrefixOf line) then
      ({ s with currLine := s.currLine + 1 },
       [⟨s.currFile, s.currLine, line.drop 1, DKind.added⟩])
    else if (" ".toList).isPrefixOf line then
      ({ s with currLine := s.currLine + 1 },
       [⟨s.currFile, s.currLine, line.drop 1, DKind.context⟩])
    else
      -- removed lines and metadata lines: ignored for numbering
      (s, [])
  else (s, [])

/-- The parser loop over the list of lines of the diff. -/
def parseLines (s : PState) : List (List Char) → List DiffRec
  | [] => []
  | l :: ls =>
      let step := parseStep s l
      step.2 ++ parseLines step.1 ls

/-- `parseDiffAndAddLineNumbers` up to rendering: the ordered sequence of
numbered entries produced from the raw diff text (split on `'\n'`). -/
def parseDiffRecords (diff : List Char) : List DiffRec :=
  parseLines ⟨[], 0⟩ (diff.splitOn '\n')

/-- Decimal rendering of a natural number, as in JS template interpolation. -/
def natChars (n : Nat) : List Char := Nat.toDigits 10 n

/-- Rendering of one entry: the template `file:line: content`. -/
def renderRec (r : DiffRec) : List Char :=
  r.file ++ ':' :: natChars r.lineNumber ++ ':' :: ' ' :: r.content

/-- `numberedContent.join('\n')`. -/
def renderRecs (rs : List DiffRec) : List Char :=
  (rs.map renderRec).intersperse ['\n'] |>.flatten

/-- The full string returned by `parseDiffAndAddLineNumbers`. -/
def parseDiffAndAddLineNumbers (diff : List Char) : List Char :=
  renderRecs (parseDiffRecords diff)

/-! ### Ghost-instrumented parser for the numbering invariant

Same algorithm, additionally carrying the new-file start offset of the
current hunk and the count of entries already pushed within that hunk.  The
projection theorem below shows the instrumentation does not change the
output. -/

/-- Instrumented loop state: `hunkStart` is the offset the current hunk's
header set (initially `0`), `idx` counts the entries pushed since that
header. -/
structure AState where
  currFile : List Char
  currLine : Nat
  hunkStart : Nat
  idx : Nat
deriving DecidableEq, Repr

/-- Instrumented entry: the entry plus the start offset of its hunk and its
0-based position among the entries of that hunk. -/
structure ADiffRec where
  file : List Char
  lineNumber : Nat
  content : List Char
  kind : DKind
  hunkStart : Nat
  idx : Nat
deriving DecidableEq, Repr

/-- Forget the instrumentation of a state. -/
def AState.erase (s : AState) : PState := ⟨s.currFile, s.currLine⟩

/-- Forget the instrumentation of an entry. -/
def ADiffRec.erase (r : ADiffRec) : DiffRec :=
  ⟨r.file, r.lineNumber, r.content, r.kind⟩

/-- Instrumented parser step; identical control flow to `parseStep`. -/
def parseStepA (s : AState) (line : List Char) : AState × List ADiffRec :=
  if ("diff --git".toList).isPrefixOf line then
    match (line.splitOn ' ').find? (fun p => ("b/".toList).isPrefixOf p) with
    | some bp => ({ s with currFile := bp.drop 2 }, [])
    | none => (s, [])
  else if ("@@".toList).isPrefixOf line then
    match findPlusNum line with
    | some n => ({ s with currLine := n, hunkStart := n, idx := 0 }, [])
    | none => (s, [])
  else if s.currFile ≠ [] then
    if (("+".toList).isPrefixOf line) ∧ ¬ (("+++".toList).isPrefixOf line) then
      ({ s with currLine := s.currLine + 1, idx := s.idx + 1 },
       [⟨s.currFile, s.currLine, line.drop 1, DKind.added, s.hunkStart, s.idx⟩])
    else if (" ".toList).isPrefixOf line then
      ({ s with currLine := s.currLine + 1, idx := s.idx + 1 },
       [⟨s.currFile, s.currLine, line.drop 1, DKind.context, s.hunkStart, s.idx⟩])
    else (s, [])
  else (s, [])

/-- Instrumented parser loop. -/
def parseLinesA (s : AState) : List (List Char) → List ADiffRec
  | [] => []
  | l :: ls =>
      let step := parseStepA s l
      step.2 ++ parseLinesA step.1 ls

/-- Instrumented run of the parser on a raw diff. -/
def parseDiffAnnotated (diff : List Char) : List ADiffRec :=
  parseLinesA ⟨[], 0, 0, 0⟩ (diff.splitOn '\n')

/-- The instrumented step projects onto the plain step. -/
theorem parseStepA_erase (f : List Char) (cl hs ix : Nat) (line : List Char) :
    parseStep ⟨f, cl⟩ line =
      ((parseStepA ⟨f, cl, hs, ix⟩ line).1.erase,
       ((parseStepA ⟨f, cl, hs, ix⟩ line).2.map ADiffRec.erase)) := by
  simp only [parseStep, parseStepA, AState.erase, ADiffRec.erase]
  split_ifs <;>
    first
      | rfl
      | (cases (line.splitOn ' ').find? (fun p => ("b/".toList).isPrefixOf p) <;> rfl)
      | (cases findPlusNum line <;> rfl)

/-- The instrumented loop projects onto the plain loop. -/
theorem parseLinesA_erase (ls : List (List Char)) : ∀ s : AState,
    parseLines s.erase ls = (parseLinesA s ls).map ADiffRec.erase := by
  induction ls with
  | nil => intro s; rfl
  | cons l ls ih =>
      intro s
      obtain ⟨f, cl, hs, ix⟩ := s
      simp only [parseLines, parseLinesA, AState.erase,
        parseStepA_erase f cl hs ix l, List.map_append]
      have ih' := ih (parseStepA ⟨f, cl, hs, ix⟩ l).1
      simp only [AState.erase] at ih'
      rw [ih']

/-- Invariant of the instrumented state: the running line counter always
equals the hunk start plus the number of entries pushed within the hunk. -/
def AInv (s : AState) : Prop := s.currLine = s.hunkStart + s.idx

/-- Each step preserves the invariant and stamps every pushed entry with a
line number equal to its hunk start plus its position in the hunk. -/
theorem parseStepA_inv (s : AState) (line : List Char) (h : AInv s) :
    AInv (parseStepA s line).1 ∧
      ∀ r ∈ (parseStepA s line).2, r.lineNumber = r.hunkStart + r.idx := by
  obtain ⟨f, cl, hs, ix⟩ := s
  have h' : cl = hs + ix := h
  simp only [parseStepA]
  split_ifs with h1 h2 h3 h4 h5
  · cases (line.splitOn ' ').find? (fun p => ("b/".toList).isPrefixOf p) <;>
      exact ⟨h', by simp⟩
  · cases findPlusNum line with
    | none => exact ⟨h', by simp⟩
    | some n => exact ⟨by show n = n + 0; omega, by simp⟩
  · refine ⟨by show cl + 1 = hs + (ix + 1); omega, ?_⟩
    intro r hr
    simp only [List.mem_singleton] at hr
    subst hr
    exact h'
  · refine ⟨by show cl + 1 = hs + (ix + 1); omega, ?_⟩
    intro r hr
    simp only [List.mem_singleton] at hr
    subst hr
    exact h'
  · exact ⟨h', by simp⟩
  · exact ⟨h', by simp⟩

/-- The whole instrumented run stamps every entry with
`lineNumber = hunkStart + idx`. -/
theorem parseLinesA_inv (ls : List (List Char)) : ∀ s : AState, AInv s →
    ∀ r ∈ parseLinesA s ls, r.lineNumber = r.hunkStart + r.idx := by
  induction ls with
  | nil => intro s _ r hr; simp [parseLinesA] at hr
  | cons l ls ih =>
      intro s hs r hr
      simp only [parseLinesA, List.mem_append] at hr
      rcases parseStepA_inv s l hs with ⟨hinv, hout⟩
      rcases hr with hr | hr
      · exact hout r hr
      · exact ih _ hinv r hr

/-! ### Comment sanitization (`postReview`, review.js lines 352–363)

`r.comment.replace(/(@(if|for|switch|let|case|default|else|empty))/g, '`$1`')`:
a left-to-right scan; at each `'@'` the alternatives are tried in the order
they appear in the pattern, the match (if any) is wrapped in backticks and
the scan resumes after it. -/

/-- The keyword alternatives of the sanitization regex, in pattern order. -/
def kwTokens : List (List Char) :=
  ["if", "for", "switch", "let", "case", "default", "else", "empty"].map
    (fun s => s.toList)

/-- First keyword of `ks` that is a prefix of `l`, together with the rest of
`l` after it (regex alternation: first alternative wins). -/
def firstKw : List (List Char) → List Char → Option (List Char × List Char)
  | [], _ => none
  | k :: ks, l => if k.isPrefixOf l then some (k, l.drop k.length) else firstKw ks l

/-- Attempt to match one of the reserved keywords at the head of `l`. -/
def matchKw (l : List Char) : Option (List Char × List Char) :=
  firstKw kwTokens l

theorem firstKw_length {ks : List (List Char)} {l k r : List Char}
    (h : firstKw ks l = some (k, r)) : r.length ≤ l.length := by
  induction ks with
  | nil => simp [firstKw] at h
  | cons k0 ks ih =>
      by_cases hp : k0.isPrefixOf l
      · simp only [firstKw, hp, if_pos, Option.some.injEq, Prod.mk.injEq] at h
        rcases h with ⟨-, hr⟩
        subst hr
        simp
      · simp only [firstKw, hp, if_neg, Bool.not_eq_true] at h
        exact ih h

theorem matchKw_length {l k r : List Char} (h : matchKw l = some (k, r)) :
    r.length ≤ l.length :=
  firstKw_length h

/-- The scan of the global regex replace, with explicit fuel to make the
recursion structural.  Each step consumes at least one character, so fuel
equal to the length of the input (as used by `sanitize`) never runs out. -/
def sanitizeAux : Nat → List Char → List Char
  | _, [] => []
  | Nat.succ fuel, c :: rest =>
      if c = '@' then
        match matchKw rest with
        | some (k, rest') => '`' :: '@' :: (k ++ '`' :: sanitizeAux fuel rest')
        | none => '@' :: sanitizeAux fuel rest
      else c :: sanitizeAux fuel rest
  | 0, l => l

/-- The global regex replace: wrap every occurrence of `@keyword` in
backticks, scanning left to right and resuming after each match. -/
def sanitize (l : List Char) : List Char :=
  sanitizeAux l.length l

/-- The fuel is irrelevant as long as it covers the length of the input. -/
theorem sanitizeAux_fuel : ∀ (f₁ f₂ : Nat) (l : List Char),
    l.length ≤ f₁ → l.length ≤ f₂ → sanitizeAux f₁ l = sanitizeAux f₂ l := by
  intro f₁
  induction f₁ with
  | zero =>
      intro f₂ l h₁ _
      rw [Nat.le_zero, List.length_eq_zero] at h₁
      subst h₁
      cases f₂ <;> rfl
  | succ f₁ ih =>
      intro f₂ l h₁ h₂
      cases l with
      | nil => cases f₂ <;> rfl
      | cons c rest =>
          cases f₂ with
          | zero => simp at h₂
          | succ f₂ =>
              simp only [List.length_cons, Nat.succ_le_succ_iff] at h₁ h₂
              simp only [sanitizeAux]
              by_cases hc : c = '@'
              · subst hc
                rw [if_pos rfl, if_pos rfl]
                cases hm : matchKw rest with
                | none =>
                    dsimp only
                    rw [ih f₂ rest h₁ h₂]
                | some p =>
                    obtain ⟨k, rest'⟩ := p
                    have hl : rest'.length ≤ rest.length := matchKw_length hm
                    dsimp only
                    rw [ih f₂ rest' (hl.trans h₁) (hl.trans h₂)]
              · rw [if_neg hc, if_neg hc, ih f₂ rest h₁ h₂]

theorem sanitize_nil : sanitize [] = [] := rfl

theorem sanitize_cons_ne (c : Char) (rest : List Char) (h : c ≠ '@') :
    sanitize (c :: rest) = c :: sanitize rest := by
  simp [sanitize, sanitizeAux, h]

theorem sanitize_at_some (rest k rest' : List Char)
    (h : matchKw rest = some (k, rest')) :
    sanitize ('@' :: rest) = '`' :: '@' :: (k ++ '`' :: sanitize rest') := by
  have hlen : rest'.length ≤ rest.length := matchKw_length h
  simp only [sanitize, List.length_cons, sanitizeAux, h, eq_self_iff_true, if_true]
  rw [sanitizeAux_fuel rest.length rest'.length rest' hlen le_rfl]

theorem sanitize_at_none (rest : List Char) (h : matchKw rest = none) :
    sanitize ('@' :: rest) = '@' :: sanitize rest := by
  simp only [sanitize, List.length_cons, sanitizeAux, h, eq_self_iff_true, if_true, ite_self]

/-- Matching at the head of a keyword always succeeds with that keyword:
no reserved keyword is a proper prefix of another, so the alternation is
unambiguous. -/
theorem matchKw_append (k : List Char) (hk : k ∈ kwTokens) (rest : List Char) :
    matchKw (k ++ rest) = some (k, rest) := by
  simp only [kwTokens, List.map, List.mem_cons, List.not_mem_nil, or_false] at hk
  rcases hk with rfl | rfl | rfl | rfl | rfl | rfl | rfl | rfl <;>
    simp [matchKw, firstKw, List.isPrefixOf]

/-- Sanitization is the identity on text containing no `'@'`. -/
theorem sanitize_noop (t : List Char) (h : '@' ∉ t) : sanitize t = t := by
  induction t with
  | nil => exact sanitize_nil
  | cons c rest ih =>
      have hc : c ≠ '@' := fun e => h (e ▸ List.mem_cons_self c rest)
      rw [sanitize_cons_ne c rest hc, ih (fun hm => h (List.mem_cons_of_mem c hm))]

/-- Every occurrence of a reserved `@keyword` that follows `'@'`-free text is
wrapped in backticks, and the scan resumes after the keyword. -/
theorem sanitize_wrap (t k rest : List Char) (ht : '@' ∉ t) (hk : k ∈ kwTokens) :
    sanitize (t ++ '@' :: (k ++ rest)) =
      t ++ '`' :: '@' :: (k ++ '`' :: sanitize rest) := by
  induction t with
  | nil =>
      simpa using sanitize_at_some (k ++ rest) k rest (matchKw_append k hk rest)
  | cons c t ih =>
      have hc : c ≠ '@' := fun e => ht (e ▸ List.mem_cons_self c t)
      rw [List.cons_append, sanitize_cons_ne _ _ hc,
        ih (fun hm => ht (List.mem_cons_of_mem c hm))]
      rfl

/-- A removed (`'-'`) diff line emits nothing and leaves the parser state
unchanged. -/
theorem parseStep_removed (s : PState) (t : List Char) :
    parseStep s ('-' :: t) = (s, []) := by
  simp [parseStep, List.isPrefixOf]

/-! ### Reviewer response data and `postReview`

The response schema of `initializeAI`: a `reviews` array of findings, each
with `path`, `line` (a JSON number), `comment`, `snippet`, plus an
enum-constrained `conclusion`. -/

/-- The `conclusion` enum of the response schema. -/
inductive Conclusion where
  | APPROVE
  | REQUEST_CHANGES
  | COMMENT
deriving DecidableEq, Repr

/-- One element of `reviewData.reviews`. -/
structure Finding where
  path : List Char
  line : Int
  comment : List Char
  snippet : List Char
deriving DecidableEq, Repr

/-- The parsed reviewer response (`reviewData`). -/
structure ReviewData where
  reviews : List Finding
  conclusion : Conclusion
deriving DecidableEq, Repr

/-- One element of the `comments` array handed to
`octokit.rest.pulls.createReview`. -/
structure PostedComment where
  path : List Char
  line : Int
  body : List Char
deriving DecidableEq, Repr

/-- The fixed header of every comment body. -/
def aiHeader : List Char := "🤖 **AI Review:** ".toList

/-- The opening of the fenced snippet block of a comment body. -/
def fenceOpen : List Char := "\n\n```typescript\n".toList

/-- The closing of the fenced snippet block of a comment body. -/
def fenceClose : List Char := "\n```".toList

/-- The comment body built by `postReview` (review.js line 361): the header,
the sanitized explanation, then the verbatim snippet inside a fenced code
block. -/
def mkCommentBody (r : Finding) : List Char :=
  aiHeader ++ sanitize r.comment ++ fenceOpen ++ r.snippet ++ fenceClose

/-- `reviewData.reviews.filter(r => r.line > 0).map(...)` of `postReview`
(review.js lines 352–363). -/
def validComments (d : ReviewData) : List PostedComment :=
  (d.reviews.filter (fun r => decide (0 < r.line))).map
    (fun r => ⟨r.path, r.line, mkCommentBody r⟩)

/-- `postReview` (review.js lines 349–378): returns the `createReview` call
that is issued — its `event` and `comments` — or `none` when no call is
made.  The `event` field is `reviewData.conclusion` (line 370). -/
def postReviewCall (d : ReviewData) : Option (Conclusion × List PostedComment) :=
  if d.reviews = [] then none
  else if validComments d = [] then none
  else some (d.conclusion, validComments d)

/-- Comment body of the earlier revision of `postReview` (review.js line
124): header plus raw comment, no sanitization and no snippet. -/
def mkCommentBodyV1 (r : Finding) : List Char :=
  aiHeader ++ r.comment

/-- Valid comments of the earlier revision (review.js lines 119–125). -/
def validCommentsV1 (d : ReviewData) : List PostedComment :=
  (d.reviews.filter (fun r => decide (0 < r.line))).map
    (fun r => ⟨r.path, r.line, mkCommentBodyV1 r⟩)

/-- The earlier revision of `postReview` (review.js lines 116–140): its
`event` is derived — `reviewData.conclusion === "APPROVE" ? "COMMENT" :
"REQUEST_CHANGES"` (line 132). -/
def postReviewCallV1 (d : ReviewData) : Option (Conclusion × List PostedComment) :=
  if d.reviews = [] then none
  else if validCommentsV1 d = [] then none
  else some
    (if d.conclusion = Conclusion.APPROVE then Conclusion.COMMENT
     else Conclusion.REQUEST_CHANGES,
     validCommentsV1 d)

/-! ### The orchestrator `run` (review.js lines 380–429)

External effects are inputs of an environment record; the observable
outcome of a run — whether `core.setFailed` was called, whether the
reviewer and the posting endpoint were called, and with what — is the
result record.  The `try`/`catch` of `run` is modelled by the error
outcomes: a throwing `generateContent` or `createReview` reaches the outer
`catch`, which calls `core.setFailed`. -/

/-- Outcome of `model.generateContent` + `JSON.parse`: the call throws, the
response text fails `JSON.parse`, or it parses to a `ReviewData`. -/
inductive ReviewerResult where
  | transportError
  | unparseable
  | parsed (d : ReviewData)
deriving DecidableEq, Repr

/-- The environment of one run. -/
structure RunEnv where
  hasApiKey : Bool
  hasGithubToken : Bool
  prDiff : Option (List Char)
  reviewer : ReviewerResult
  postSucceeds : Bool
deriving DecidableEq, Repr

/-- The observable outcome of one run. -/
structure RunResult where
  failed : Bool
  reviewerCalled : Bool
  postCalled : Bool
  postedComments : List PostedComment
  postedEvent : Option Conclusion
deriving DecidableEq, Repr

/-- JS falsiness of the fetched diff (`!prDiff`): absent or empty string. -/
def diffFalsy : Option (List Char) → Bool
  | none => true
  | some d => d.isEmpty

/-- The `run` function: credential guard, diff guard, reviewer call,
`postReview`, then the conclusion check that decides `core.setFailed`. -/
def run (env : RunEnv) : RunResult :=
  if !(env.hasApiKey && env.hasGithubToken) then
    ⟨true, false, false, [], none⟩
  else if diffFalsy env.prDiff then
    ⟨false, false, false, [], none⟩
  else
    match env.reviewer with
    | ReviewerResult.transportError => ⟨true, true, false, [], none⟩
    | ReviewerResult.unparseable => ⟨false, true, false, [], none⟩
    | ReviewerResult.parsed d =>
        match postReviewCall d with
        | none =>
            ⟨decide (d.conclusion = Conclusion.REQUEST_CHANGES), true, false, [], none⟩
        | some (e, cs) =>
            if env.postSucceeds then
              ⟨decide (d.conclusion = Conclusion.REQUEST_CHANGES), true, true, cs, some e⟩
            else ⟨true, true, true, cs, some e⟩

/-- The diff payload embedded into the prompt (`createPrompt`, review.js
line 345): `numberedDiff.slice(0, CONFIG.diffLimit)`. -/
def promptEmbeddedDiff (numberedDiff : List Char) : List Char :=
  numberedDiff.take diffLimit

/-! ### Helper lemmas about `postReviewCall` and `run` -/

theorem validComments_eq_nil (d : ReviewData) (h : ∀ r ∈ d.reviews, r.line ≤ 0) :
    validComments d = [] := by
  unfold validComments
  rw [List.map_eq_nil_iff, List.filter_eq_nil_iff]
  intro r hr
  simpa using Int.not_lt.mpr (h r hr)

theorem postReviewCall_nil (d : ReviewData) (h : d.reviews = []) :
    postReviewCall d = none := by
  unfold postReviewCall
  rw [if_pos h]

theorem postReviewCall_nonpos (d : ReviewData) (h : ∀ r ∈ d.reviews, r.line ≤ 0) :
    postReviewCall d = none := by
  unfold postReviewCall
  rw [validComments_eq_nil d h]
  simp

theorem postReviewCall_isSome (d : ReviewData) :
    (postReviewCall d).isSome ↔ validComments d ≠ [] := by
  unfold postReviewCall
  split_ifs with h1 h2
  · simp [validComments, h1]
  · simp [h2]
  · simp [h2]

theorem postReviewCall_some_event (d : ReviewData) (e : Conclusion)
    (cs : List PostedComment) (h : postReviewCall d = some (e, cs)) :
    e = d.conclusion ∧ cs = validComments d ∧ cs ≠ [] := by
  unfold postReviewCall at h
  split_ifs at h with h1 h2
  simp only [Option.some.injEq, Prod.mk.injEq] at h
  exact ⟨h.1.symm, h.2.symm, h.2.symm ▸ h2⟩

theorem postReviewCall_some_coords (d : ReviewData) (e : Conclusion)
    (cs : List PostedComment) (h : postReviewCall d = some (e, cs)) :
    ∀ c ∈ cs, 0 < c.line ∧ ∃ r ∈ d.reviews, c.path = r.path ∧ c.line = r.line := by
  obtain ⟨-, hcs, -⟩ := postReviewCall_some_event d e cs h
  subst hcs
  intro c hc
  simp only [validComments, List.mem_map, List.mem_filter] at hc
  obtain ⟨r, ⟨hr, hline⟩, rfl⟩ := hc
  exact ⟨by simpa using hline, r, hr, rfl, rfl⟩

theorem postReviewCallV1_some (d : ReviewData) (e : Conclusion)
    (cs : List PostedComment) (h : postReviewCallV1 d = some (e, cs)) :
    e ≠ Conclusion.APPROVE ∧ cs ≠ [] := by
  unfold postReviewCallV1 at h
  split_ifs at h with h1 h2 h3
  · simp only [Option.some.injEq, Prod.mk.injEq] at h
    exact ⟨h.1 ▸ (by decide), h.2 ▸ h2⟩
  · simp only [Option.some.injEq, Prod.mk.injEq] at h
    exact ⟨h.1 ▸ (by decide), h.2 ▸ h2⟩

/-- Past the credential and diff guards, a run depends only on the reviewer
outcome and the posting outcome. -/
theorem run_guard (env : RunEnv) (hk : env.hasApiKey = true)
    (ht : env.hasGithubToken = true) (hd : diffFalsy env.prDiff = false) :
    run env = run ⟨true, true, some ['x'], env.reviewer, env.postSucceeds⟩ := by
  unfold run
  rw [hk, ht, hd]
  simp [diffFalsy]

/-- Reduction of a run whose reviewer response parsed and whose posting
succeeds. -/
theorem run_parsed (env : RunEnv) (d : ReviewData) (hk : env.hasApiKey = true)
    (ht : env.hasGithubToken = true) (hd : diffFalsy env.prDiff = false)
    (hr : env.reviewer = ReviewerResult.parsed d) (hp : env.postSucceeds = true) :
    (run env).failed = decide (d.conclusion = Conclusion.REQUEST_CHANGES)
    ∧ (run env).postCalled = (postReviewCall d).isSome
    ∧ (run env).postedComments = ((postReviewCall d).map Prod.snd).getD [] := by
  unfold run
  rw [hk, ht, hd, hr]
  cases h : postReviewCall d with
  | none => simp [h]
  | some p =>
      obtain ⟨e, cs⟩ := p
      simp [h, hp]


/-! ### Example inputs used by witnesses and counterexamples -/

/-- A small diff: one file header, one hunk starting at new-file line 5,
two added lines, one context line, one removed line. -/
def exDiff : List Char :=
  ("diff --git a/f.ts b/f.ts\n@@ -1,2 +5,3 @@\n+a\n x\n-b\n+c").toList

/-- A finding anchored at line 3 with an APPROVE-holding response. -/
def exFinding : Finding := ⟨"a.ts".toList, 3, "bad".toList, "snip".toList⟩

/-- A reviewer response holding one finding and the conclusion `APPROVE`. -/
def exApproveData : ReviewData := ⟨[exFinding], Conclusion.APPROVE⟩

/-- A finding whose coordinate (line 42) does not occur in `exDiff`. -/
def exOffFinding : Finding := ⟨"f.ts".toList, 42, "bad".toList, "s".toList⟩

/-- A response carrying only `exOffFinding`. -/
def exOffData : ReviewData := ⟨[exOffFinding], Conclusion.COMMENT⟩

/-- The comment `postReview` builds from `exOffFinding`. -/
def exOffComment : PostedComment := ⟨"f.ts".toList, 42, mkCommentBody exOffFinding⟩

/-- A response whose findings all have non-positive line numbers. -/
def exNegData : ReviewData :=
  ⟨[⟨"a.ts".toList, 0, "c".toList, "s".toList⟩,
    ⟨"b.ts".toList, -2, "c".toList, "s".toList⟩], Conclusion.REQUEST_CHANGES⟩

/-- An added line of 90 characters. -/
def longLine : List Char := List.replicate 90 'x'

/-- A diff whose single added line is 90 characters long. -/
def exLongDiff : List Char :=
  ("diff --git a/f.ts b/f.ts\n@@ -1,0 +1,1 @@\n+").toList ++ longLine

/-- A run over `exLongDiff` in which the reviewer reports nothing. -/
def exEnvLong : RunEnv :=
  ⟨true, true, some exLongDiff,
   ReviewerResult.parsed ⟨[], Conclusion.APPROVE⟩, true⟩

/-- A run over a short, violation-free diff with the same reviewer result as
`exEnvLong`. -/
def exEnvShort : RunEnv :=
  ⟨true, true, some (("diff --git a/f.ts b/f.ts\n@@ -1,0 +1,1 @@\n+ok").toList),
   ReviewerResult.parsed ⟨[], Conclusion.APPROVE⟩, true⟩

/-- A run in which the reviewer call throws. -/
def exEnvTransport : RunEnv :=
  ⟨true, true, some ("x".toList), ReviewerResult.transportError, true⟩

/-- A run in which the reviewer response fails to parse. -/
def exEnvUnparse : RunEnv :=
  ⟨true, true, some ("x".toList), ReviewerResult.unparseable, true⟩

/-- A run whose fetched diff is the empty string. -/
def exEnvEmptyDiff : RunEnv :=
  ⟨true, true, some [], ReviewerResult.unparseable, true⟩

/-- `REQUEST_CHANGES` with zero findings. -/
def exRCdataEmpty : ReviewData := ⟨[], Conclusion.REQUEST_CHANGES⟩

/-- `REQUEST_CHANGES` with one finding. -/
def exRCdataFull : ReviewData :=
  ⟨[⟨"a.ts".toList, 1, "c".toList, "s".toList⟩], Conclusion.REQUEST_CHANGES⟩

/-- A run receiving `exRCdataEmpty`. -/
def exEnvRCempty : RunEnv :=
  ⟨true, true, some ("x".toList), ReviewerResult.parsed exRCdataEmpty, true⟩

/-- A run receiving `exRCdataFull` over a different diff. -/
def exEnvRCfull : RunEnv :=
  ⟨true, true, some ("y".toList), ReviewerResult.parsed exRCdataFull, true⟩

/-! ### The claims -/

/-- Claim C1: every entry emitted by the diff parser carries a line number
equal to its hunk header's new-file start offset plus the count of added and
context entries already emitted within that hunk (so numbers increase by
exactly 1 per added or context line), and a removed (`'-'`) line never emits
an entry and never advances the counter. -/
theorem claim_C1 (diff : List Char) :
    (parseDiffRecords diff = (parseDiffAnnotated diff).map ADiffRec.erase)
    ∧ (∀ r ∈ parseDiffAnnotated diff, r.lineNumber = r.hunkStart + r.idx)
    ∧ (∀ (s : PState) (t : List Char), parseStep s ('-' :: t) = (s, [])) := by
  refine ⟨?_, ?_, parseStep_removed⟩
  · have h := parseLinesA_erase (diff.splitOn '\n') ⟨[], 0, 0, 0⟩
    simpa [parseDiffRecords, parseDiffAnnotated, AState.erase] using h
  · exact parseLinesA_inv (diff.splitOn '\n') ⟨[], 0, 0, 0⟩ rfl

/-- Witness for C1: in `exDiff`, the third emitted entry (the added line
after a context line and a skipped removed line) is numbered
`5 + 2 = 7`. -/
theorem claim_C1_witness :
    (⟨"f.ts".toList, 7, "c".toList, DKind.added, 5, 2⟩ : ADiffRec).lineNumber
      = 5 + 2 :=
  (claim_C1 exDiff).2.1 ⟨"f.ts".toList, 7, "c".toList, DKind.added, 5, 2⟩ (by decide)

/-- Counterexample to C2: the current `postReview` posts with
`event: reviewData.conclusion`; on a response with one valid finding and
conclusion `APPROVE` the posted event is `APPROVE` even though a comment is
posted. -/
theorem claim_C2_counterexample :
    (postReviewCall exApproveData).map Prod.fst = some Conclusion.APPROVE
    ∧ (postReviewCall exApproveData).map (fun p => p.2.length) = some 1 := by
  decide

/-- Claim C2 (amended): the current `postReview` copies the reviewer's
conclusion verbatim as the posted event, so an `APPROVE` conclusion yields an
`APPROVE` event even while comments are posted; only the earlier revision of
`postReview` derives the event (`APPROVE → COMMENT`, otherwise
`REQUEST_CHANGES`), never posting an `APPROVE` event. -/
theorem claim_C2_amended (d : ReviewData) :
    (∀ e cs, postReviewCall d = some (e, cs) → e = d.conclusion)
    ∧ (∀ e cs, postReviewCallV1 d = some (e, cs) →
        e ≠ Conclusion.APPROVE ∧ cs ≠ []) :=
  ⟨fun e cs h => (postReviewCall_some_event d e cs h).1,
   fun e cs h => postReviewCallV1_some d e cs h⟩

/-- Witness for the amended C2 at `exApproveData`: the earlier revision
posts the event `COMMENT`, not `APPROVE`. -/
theorem claim_C2_witness :
    Conclusion.COMMENT ≠ Conclusion.APPROVE ∧
      ([⟨"a.ts".toList, 3, mkCommentBodyV1 exFinding⟩] : List PostedComment) ≠ [] :=
  (claim_C2_amended exApproveData).2 Conclusion.COMMENT
    [⟨"a.ts".toList, 3, mkCommentBodyV1 exFinding⟩] (by decide)

/-- Counterexample to C3: a reviewer transport error reaches the outer
`catch`, which calls `core.setFailed` — the blocking failure signal is
emitted. -/
theorem claim_C3_counterexample :
    exEnvTransport.reviewer = ReviewerResult.transportError
    ∧ (run exEnvTransport).failed = true := by
  decide

/-- Claim C3 (amended): a reviewer response that fails to parse yields a
benign early return — no blocking signal, no posting call — but a
transport/invocation error of the reviewer call propagates to the outer
`catch`, which emits the blocking failure signal. -/
theorem claim_C3_amended (env : RunEnv) (hk : env.hasApiKey = true)
    (ht : env.hasGithubToken = true) (hd : diffFalsy env.prDiff = false) :
    (env.reviewer = ReviewerResult.unparseable →
      (run env).failed = false ∧ (run env).postCalled = false)
    ∧ (env.reviewer = ReviewerResult.transportError → (run env).failed = true) := by
  constructor
  · intro hrev
    unfold run
    rw [hk, ht, hd, hrev]
    exact ⟨rfl, rfl⟩
  · intro hrev
    unfold run
    rw [hk, ht, hd, hrev]
    rfl

/-- Witness for the amended C3: a concrete unparseable-response run neither
fails nor posts. -/
theorem claim_C3_witness :
    (run exEnvUnparse).failed = false ∧ (run exEnvUnparse).postCalled = false :=
  (claim_C3_amended exEnvUnparse rfl rfl rfl).1 rfl

/-- Counterexample to C4: `exLongDiff` contains an added line of 90
characters (past the 80-character limit), yet the run posts no comment and
does not fail when the external reviewer reports nothing — no local
deterministic line-length check exists. -/
theorem claim_C4_counterexample :
    (∃ r ∈ parseDiffRecords exLongDiff, r.kind = DKind.added ∧ 80 < r.content.length)
    ∧ (run exEnvLong).postedComments = []
    ∧ (run exEnvLong).failed = false := by
  decide

/-- Claim C4 (amended): there is no local deterministic StyleChecker — the
posted comments and the failure signal of a run are functions of the
reviewer outcome and posting outcome alone, independent of the diff content;
the line-length rule is enforced only through instructions embedded in the
reviewer prompt. -/
theorem claim_C4_amended (env₁ env₂ : RunEnv)
    (h₁k : env₁.hasApiKey = true) (h₁t : env₁.hasGithubToken = true)
    (h₂k : env₂.hasApiKey = true) (h₂t : env₂.hasGithubToken = true)
    (h₁d : diffFalsy env₁.prDiff = false) (h₂d : diffFalsy env₂.prDiff = false)
    (hrev : env₁.reviewer = env₂.reviewer)
    (hpost : env₁.postSucceeds = env₂.postSucceeds) :
    (run env₁).postedComments = (run env₂).postedComments
    ∧ (run env₁).failed = (run env₂).failed := by
  rw [run_guard env₁ h₁k h₁t h₁d, run_guard env₂ h₂k h₂t h₂d, hrev, hpost]
  exact ⟨rfl, rfl⟩

/-- Witness for the amended C4: the 90-character-line diff and a clean diff
produce identical outcomes under the same reviewer response. -/
theorem claim_C4_witness :
    (run exEnvLong).postedComments = (run exEnvShort).postedComments
    ∧ (run exEnvLong).failed = (run exEnvShort).failed :=
  claim_C4_amended exEnvLong exEnvShort rfl rfl rfl rfl (by decide) (by decide)
    rfl rfl

/-- Counterexample to C5: on `exDiff` the parser emits only lines 5, 6 and 7
of `f.ts`, yet a reviewer finding at line 42 is posted unchanged — the
posted coordinate does not occur in the parsed diff. -/
theorem claim_C5_counterexample :
    (postReviewCall exOffData).map (fun p => p.2.map (fun c => (c.path, c.line)))
        = some [("f.ts".toList, (42 : Int))]
    ∧ (∀ r ∈ parseDiffRecords exDiff,
        ¬(r.file = "f.ts".toList ∧ (r.lineNumber : Int) = 42)) := by
  decide

/-- Claim C5 (amended): every posted comment has a positive line number and
takes its `path`/`line` verbatim from some reviewer finding; `postReview`
performs no validation against the coordinates emitted by the diff parser. -/
theorem claim_C5_amended (d : ReviewData) (e : Conclusion)
    (cs : List PostedComment) (h : postReviewCall d = some (e, cs)) :
    ∀ c ∈ cs, 0 < c.line ∧ ∃ r ∈ d.reviews, c.path = r.path ∧ c.line = r.line :=
  postReviewCall_some_coords d e cs h

/-- Witness for the amended C5 at `exOffData`. -/
theorem claim_C5_witness :
    0 < exOffComment.line ∧
      ∃ r ∈ exOffData.reviews, exOffComment.path = r.path ∧ exOffComment.line = r.line :=
  claim_C5_amended exOffData Conclusion.COMMENT [exOffComment] (by decide)
    exOffComment (by decide)


/-- Claim C6: the comment body built by `postReview` for a reviewer finding
wraps each occurrence of the reserved keyword tokens (`@if`, `@for`,
`@switch`, `@let`, `@case`, `@default`, `@else`, `@empty`) of the
explanation in backtick code spans, and appends the finding's snippet
verbatim inside a fenced code block. -/
theorem claim_C6 :
    (∀ r : Finding, mkCommentBody r =
        aiHeader ++ sanitize r.comment ++ fenceOpen ++ r.snippet ++ fenceClose)
    ∧ (∀ t k rest, '@' ∉ t → k ∈ kwTokens →
        sanitize (t ++ '@' :: (k ++ rest)) =
          t ++ '`' :: '@' :: (k ++ '`' :: sanitize rest))
    ∧ (∀ t, '@' ∉ t → sanitize t = t) :=
  ⟨fun _ => rfl, sanitize_wrap, sanitize_noop⟩

/-- Witness for C6: wrapping of `@if` after plain text. -/
theorem claim_C6_witness :
    sanitize ("use ".toList ++ '@' :: ("if".toList ++ " here".toList)) =
      "use ".toList ++ '`' :: '@' :: ("if".toList ++ '`' :: sanitize (" here".toList)) :=
  claim_C6.2.1 "use ".toList "if".toList " here".toList (by decide) (by decide)

/-- Claim C7: `postReview` calls the posting endpoint iff the filtered
comment list is non-empty — no findings, or only non-positive line numbers,
mean no call — and every posted comment has `line > 0`. -/
theorem claim_C7 (d : ReviewData) :
    ((postReviewCall d).isSome ↔ validComments d ≠ [])
    ∧ (d.reviews = [] → postReviewCall d = none)
    ∧ ((∀ r ∈ d.reviews, r.line ≤ 0) → postReviewCall d = none)
    ∧ (∀ e cs, postReviewCall d = some (e, cs) → ∀ c ∈ cs, 0 < c.line) := by
  refine ⟨postReviewCall_isSome d, postReviewCall_nil d, postReviewCall_nonpos d, ?_⟩
  intro e cs h c hc
  exact (postReviewCall_some_coords d e cs h c hc).1

/-- Witness for C7: a response whose findings all have non-positive lines
triggers no posting call. -/
theorem claim_C7_witness : postReviewCall exNegData = none :=
  (claim_C7 exNegData).2.2.1 (by decide)

/-- Claim C8: the payload embedded in the reviewer prompt is
`numberedDiff.slice(0, 40000)` — exactly the first
`min(length, 40000)` characters of the numbered diff, a prefix, so the
earliest lines are kept and nothing before the cut is altered. -/
theorem claim_C8 (diff : List Char) :
    promptEmbeddedDiff (parseDiffAndAddLineNumbers diff)
        = (parseDiffAndAddLineNumbers diff).take 40000
    ∧ (promptEmbeddedDiff (parseDiffAndAddLineNumbers diff)).length
        = min 40000 (parseDiffAndAddLineNumbers diff).length
    ∧ promptEmbeddedDiff (parseDiffAndAddLineNumbers diff) <+:
        parseDiffAndAddLineNumbers diff :=
  ⟨rfl, List.length_take _ _, List.take_prefix _ _⟩

/-- Claim C9: a falsy fetched diff (absent or empty) ends the run benignly:
no reviewer call, no posting call, zero comments, no failure signal. -/
theorem claim_C9 (env : RunEnv) (hk : env.hasApiKey = true)
    (ht : env.hasGithubToken = true) (hd : diffFalsy env.prDiff = true) :
    run env = ⟨false, false, false, [], none⟩ := by
  unfold run
  rw [hk, ht, hd]
  rfl

/-- Witness for C9 at an empty-string diff. -/
theorem claim_C9_witness : run exEnvEmptyDiff = ⟨false, false, false, [], none⟩ :=
  claim_C9 exEnvEmptyDiff rfl rfl rfl

/-- Claim C10: for well-parsed reviewer responses with successful posting,
the blocking outcome depends only on the conclusion: runs with equal
conclusions fail alike, a run fails exactly when the conclusion is
`REQUEST_CHANGES`, and a `REQUEST_CHANGES` response with zero findings
still fails without any posting call. -/
theorem claim_C10 (env₁ env₂ : RunEnv) (d₁ d₂ : ReviewData)
    (h₁k : env₁.hasApiKey = true) (h₁t : env₁.hasGithubToken = true)
    (h₂k : env₂.hasApiKey = true) (h₂t : env₂.hasGithubToken = true)
    (h₁d : diffFalsy env₁.prDiff = false) (h₂d : diffFalsy env₂.prDiff = false)
    (h₁r : env₁.reviewer = ReviewerResult.parsed d₁)
    (h₂r : env₂.reviewer = ReviewerResult.parsed d₂)
    (h₁p : env₁.postSucceeds = true) (h₂p : env₂.postSucceeds = true)
    (hcon : d₁.conclusion = d₂.conclusion) :
    ((run env₁).failed = (run env₂).failed)
    ∧ ((run env₁).failed = true ↔ d₁.conclusion = Conclusion.REQUEST_CHANGES)
    ∧ (d₁.reviews = [] →
        (run env₁).failed = decide (d₁.conclusion = Conclusion.REQUEST_CHANGES)
        ∧ (run env₁).postCalled = false) := by
  obtain ⟨hf₁, hc₁, -⟩ := run_parsed env₁ d₁ h₁k h₁t h₁d h₁r h₁p
  obtain ⟨hf₂, -, -⟩ := run_parsed env₂ d₂ h₂k h₂t h₂d h₂r h₂p
  refine ⟨?_, ?_, ?_⟩
  · rw [hf₁, hf₂, hcon]
  · rw [hf₁]
    simp
  · intro hnil
    refine ⟨hf₁, ?_⟩
    rw [hc₁, postReviewCall_nil d₁ hnil]
    rfl

/-- Witness for C10: an empty-findings `REQUEST_CHANGES` run and a
one-finding `REQUEST_CHANGES` run over different diffs fail alike, and the
failure is equivalent to the conclusion being `REQUEST_CHANGES`. -/
theorem claim_C10_witness :
    (run exEnvRCempty).failed = (run exEnvRCfull).failed
    ∧ ((run exEnvRCempty).failed = true ↔
        exRCdataEmpty.conclusion = Conclusion.REQUEST_CHANGES) :=
  ⟨(claim_C10 exEnvRCempty exEnvRCfull exRCdataEmpty exRCdataFull rfl rfl rfl rfl
      rfl rfl rfl rfl rfl rfl rfl).1,
   (claim_C10 exEnvRCempty exEnvRCfull exRCdataEmpty exRCdataFull rfl rfl rfl rfl
      rfl rfl rfl rfl rfl rfl rfl).2.1⟩

end Review
